import Mathlib

/-!
Verification of the ABAC policy-evaluation engine of `better-auth-abac`.

The definitions below are a shallow embedding of the evaluation core in
`src/abac/funcs.ts` (attribute gathering, target matching, rule evaluation,
priority-based decision resolution, the orchestrator `canUserPerformAction`)
together with the decision-resolver variant found in the bundled
`abac-funcs` document and the subject-id check of the plugin endpoints.

Modelling conventions:
* Database calls (`await db...execute()`) are values of `Except String _`
  supplied by a `Db` structure; a `.error` models a thrown storage error.
* A JavaScript `Map<string, AttributeValue>` is an insertion-ordered
  association list; `mapSet` overwrites in place (keeping the position of an
  existing key) and appends new keys, exactly as `Map.prototype.set` does.
* All stored attribute/rule/target values are strings (as they are in the
  database schema), so `String(x)` coercions are identities.  `Number(x)` is
  modelled by `jsNumber` for the integer-valued strings the engine stores;
  a non-numeric string is `none` (NaN), and every NaN comparison is false.
* `RegExp(b).test(a)` is delegated to an explicit `regexTest` parameter
  (a field of `Db`), since regular-expression semantics are external to
  this engine.
* Wall-clock time (`Date.now()` differences, `new Date()`) enters through
  explicit parameters/fields (`processingTimeMs`, `nowISO`, `nowDay`,
  `nowTime`); the module-level attribute cache is a performance wrapper
  that hands back the same computed map, so the uncached path below is the
  per-request semantics.
-/

/-- JavaScript falsiness of an optional string (`undefined`, `null` and the
empty string are falsy). -/
def jsFalsyOptStr : Option String → Bool
  | none => true
  | some s => s == ""

/-- JavaScript `x || d` for an optional string `x` (falsy `x` yields `d`). -/
def jsOrStr (x : Option String) (d : String) : String :=
  match x with
  | none => d
  | some s => if s == "" then d else s

/-- JavaScript `x || d` for an optional number `x` (`undefined` and `0` are
falsy). -/
def jsOrNum (x : Option Int) (d : Int) : Int :=
  match x with
  | none => d
  | some v => if v = 0 then d else v

/-- JavaScript `Boolean.prototype.toString`. -/
def jsBoolStr (b : Bool) : String :=
  if b then "true" else "false"

/-- JavaScript `Number()` on the string values this engine stores: leading and
trailing whitespace is ignored, the empty string is `0`, an optionally signed
integer literal is its value, anything else is NaN (`none`).  (Fractional and
exponent literals are not produced by this engine and are not modelled.) -/
def jsNumber (s : String) : Option Int :=
  let t := s.trim
  if t = "" then some 0 else t.toInt?

/-- `AttributeValue` from `funcs.ts`. -/
structure AttributeValue where
  id : String
  name : String
  type : String
  category : String
  value : String
deriving DecidableEq, Repr

/-- The request-scoped attribute map (`Map<string, AttributeValue>`). -/
abbrev AttrMap := List (String × AttributeValue)

/-- `Map.prototype.set`: overwrite an existing key in place, else append. -/
def mapSet (m : AttrMap) (k : String) (v : AttributeValue) : AttrMap :=
  if m.any (fun p => p.1 == k) then
    m.map (fun p => if p.1 == k then (k, v) else p)
  else
    m ++ [(k, v)]

/-- `Map.prototype.get`. -/
def mapGet (m : AttrMap) (k : String) : Option AttributeValue :=
  (m.find? (fun p => p.1 == k)).map (fun p => p.2)

/-- `String.prototype.includes`: is `needle` a contiguous segment of the
haystack? -/
def listInfix (needle : List Char) : List Char → Bool
  | [] => needle.isEmpty
  | c :: rest => needle.isPrefixOf (c :: rest) || listInfix needle rest

/-- The `OPERATORS` table of `funcs.ts`: a string-keyed catalog of binary
predicates on the (string) attribute value and the rule/target value; an
unknown name yields `none`.  `rt` interprets `regex` (`rt pattern input`). -/
def OPERATORS (rt : String → String → Bool) (name : String) :
    Option (String → String → Bool) :=
  if name = "equals" then some (fun a b => a == b)
  else if name = "not_equals" then some (fun a b => !(a == b))
  else if name = "greater_than" then some (fun a b =>
    match jsNumber a, jsNumber b with
    | some x, some y => decide (y < x)
    | _, _ => false)
  else if name = "less_than" then some (fun a b =>
    match jsNumber a, jsNumber b with
    | some x, some y => decide (x < y)
    | _, _ => false)
  else if name = "contains" then some (fun a b => listInfix b.data a.data)
  else if name = "not_contains" then some (fun a b => !(listInfix b.data a.data))
  else if name = "in" then some (fun a b => (b.splitOn ",").contains a)
  else if name = "not_in" then some (fun a b => !((b.splitOn ",").contains a))
  else if name = "regex" then some (fun a b => rt b a)
  else if name = "exists" then some (fun a _ => !(a == ""))
  else if name = "not_exists" then some (fun a _ => a == "")
  else none

/-- `AuthorizationRequest` from `funcs.ts` (context values are the strings
they are coerced to on insertion). -/
structure AuthorizationRequest where
  subjectId : String
  resourceId : Option String
  resourceType : Option String
  actionName : String
  context : List (String × String)
deriving DecidableEq, Repr

/-- `AuthorizationResult` from `funcs.ts`. -/
structure AuthorizationResult where
  decision : String
  reason : Option String
  appliedPolicies : List String
  processingTimeMs : Nat
deriving DecidableEq, Repr

/-- `PolicyEvaluation` from `funcs.ts` (`matched` renders the source field
`matches`, which is a reserved word here). -/
structure PolicyEvaluation where
  policyId : String
  policyName : String
  effect : String
  matched : Bool
  reason : Option String
deriving DecidableEq, Repr

/-- A row of the `policy` table as selected by `findApplicablePolicies`. -/
structure PolicyRow where
  id : String
  name : String
  description : Option String
  effect : String
  priority : Int
  isActive : Option Int
  policySetId : String
deriving DecidableEq, Repr

/-- A row of the `policy_rule` query (the joined attribute name included). -/
structure PolicyRule where
  id : String
  attributeId : String
  operator : String
  value : String
  logicalOperator : Option String
  groupId : Option String
  attributeName : String
deriving DecidableEq, Repr

/-- A row of the `policy_target` query (the joined attribute name included). -/
structure PolicyTarget where
  id : String
  targetType : String
  targetId : Option String
  attributeId : Option String
  operator : String
  value : String
  attributeName : String
deriving DecidableEq, Repr

/-- `PolicyWithRules` from `funcs.ts`. -/
structure PolicyWithRules where
  policy : PolicyRow
  rules : List PolicyRule
  targets : List PolicyTarget
deriving DecidableEq, Repr

/-- An `environment_attribute` row together with its validity window. -/
structure EnvAttrRow where
  attr : AttributeValue
  validFrom : Option Int
  validTo : Option Int
deriving DecidableEq, Repr

/-- The storage adapter and ambient environment of one authorization run:
each field is one of the queries issued by `funcs.ts` (a `.error` models the
corresponding `await` throwing), plus the run's clock readings and the
regular-expression tester. -/
structure Db where
  userAttrs : String → Except String (List AttributeValue)
  roleAttrs : String → Except String (List AttributeValue)
  resourceAttrs : String → Except String (List AttributeValue)
  resourceOwner : String → Except String (Option String)
  actionAttrs : String → Except String (List AttributeValue)
  envRows : Except String (List EnvAttrRow)
  policyRows : Except String (List PolicyRow)
  rulesFor : String → Except String (List PolicyRule)
  targetsFor : String → Except String (List PolicyTarget)
  nowISO : String
  nowDay : String
  nowTime : Int
  regexTest : String → String → Bool

/-- `MAX_ATTRIBUTES_PER_REQUEST` from `gatherAttributes`. -/
def MAX_ATTRIBUTES_PER_REQUEST : Nat := 100

/-- `safelyAddAttribute` from `gatherAttributes`: refuse once the count has
reached the cap, otherwise insert and count the insertion (an overwrite of an
existing key still counts). -/
def safelyAddAttribute (st : AttrMap × Nat) (key : String) (attr : AttributeValue) :
    (AttrMap × Nat) × Bool :=
  if st.2 ≥ MAX_ATTRIBUTES_PER_REQUEST then (st, false)
  else ((mapSet st.1 key attr, st.2 + 1), true)

/-- The `if (attributeCount.count < MAX_ATTRIBUTES_PER_REQUEST) { map.set(...);
count++ }` pattern used for every synthetic attribute of `gatherAttributes`. -/
def condAddAttr (st : AttrMap × Nat) (k : String) (v : AttributeValue) :
    AttrMap × Nat :=
  if st.2 < MAX_ATTRIBUTES_PER_REQUEST then (mapSet st.1 k v, st.2 + 1) else st

/-- One of the `for (const attr of rows) { if (!safelyAddAttribute(...)) break }`
loops of `gatherAttributes`, inserting under `pre ++ "." ++ name`. -/
def addAttrsLoop (pre : String) : List AttributeValue → AttrMap × Nat → AttrMap × Nat
  | [], st => st
  | attr :: rest, st =>
    let r := safelyAddAttribute st (pre ++ "." ++ attr.name) attr
    if r.2 then addAttrsLoop pre rest r.1 else r.1

/-- The `for (const [key, value] of contextEntries)` loop of
`addDynamicEnvironmentAttributes` (breaks at the cap, truncates values to
1000 characters; the `typeof` of an incoming string is `"string"`). -/
def ctxLoop : List (String × String) → AttrMap × Nat → AttrMap × Nat
  | [], st => st
  | (k, v) :: rest, st =>
    if st.2 ≥ MAX_ATTRIBUTES_PER_REQUEST then st
    else
      ctxLoop rest
        (mapSet st.1 ("environment." ++ k)
          ⟨"ctx-" ++ k, k, "string", "environment", v.take 1000⟩, st.2 + 1)

/-- `addDynamicEnvironmentAttributes` from `funcs.ts`: synthetic
`environment.current_time` and `environment.day_of_week`, then the
caller-supplied context entries (at most `min remaining 20` of them). -/
def addDynamicEnvironmentAttributes (st : AttrMap × Nat)
    (context : List (String × String)) (nowISO nowDay : String) : AttrMap × Nat :=
  let st1 := condAddAttr st "environment.current_time"
    ⟨"env-current-time", "current_time", "string", "environment", nowISO⟩
  let st2 := condAddAttr st1 "environment.day_of_week"
    ⟨"env-day-of-week", "day_of_week", "string", "environment", nowDay⟩
  if context.length > 0 ∧ st2.2 < MAX_ATTRIBUTES_PER_REQUEST then
    let remainingSlots := MAX_ATTRIBUTES_PER_REQUEST - st2.2
    let maxContextAttrs := min remainingSlots 20
    ctxLoop (context.take maxContextAttrs) st2
  else st2

/-- The validity-window filter of the `environment_attribute` query
(`valid_from IS NULL OR valid_from <= NOW()`, and symmetrically). -/
def envRowValid (nowTime : Int) (r : EnvAttrRow) : Bool :=
  (match r.validFrom with
   | none => true
   | some t => decide (t ≤ nowTime)) &&
  (match r.validTo with
   | none => true
   | some t => decide (nowTime ≤ t))

/-- The `if (sanitizedRequest.resourceId && count < MAX) { ... }` block of
`gatherAttributes`: stored resource attributes, then `resource.owner_id` and
the derived `resource.is_owner` (each insertion individually bounded). -/
def gatherResourceSection (db : Db) (req : AuthorizationRequest)
    (st2 : AttrMap × Nat) : Except String (AttrMap × Nat) :=
  match req.resourceId with
  | some rid =>
    if rid ≠ "" ∧ st2.2 < MAX_ATTRIBUTES_PER_REQUEST then do
      let resourceAttrs ← db.resourceAttrs rid
      let st := addAttrsLoop "resource" resourceAttrs st2
      if st.2 < MAX_ATTRIBUTES_PER_REQUEST then do
        let resourceOwner ← db.resourceOwner rid
        match resourceOwner with
        | some ownerId =>
          if st.2 < MAX_ATTRIBUTES_PER_REQUEST then
            pure (condAddAttr
              (mapSet st.1 "resource.owner_id"
                ⟨"resource-owner", "owner_id", "string", "resource", ownerId⟩, st.2 + 1)
              "resource.is_owner"
              ⟨"resource-is-owner", "is_owner", "boolean", "resource",
                jsBoolStr (ownerId == req.subjectId)⟩)
          else pure st
        | none => pure st
      else pure st
    else pure st2
  | none => pure st2

/-- The stored-action-attribute block of `gatherAttributes`. -/
def gatherActionSection (db : Db) (req : AuthorizationRequest)
    (st3 : AttrMap × Nat) : Except String (AttrMap × Nat) :=
  if st3.2 < MAX_ATTRIBUTES_PER_REQUEST then do
    let actionAttrs ← db.actionAttrs req.actionName
    pure (addAttrsLoop "action" actionAttrs st3)
  else pure st3

/-- The synthetic `resource.resource_type` insertion of `gatherAttributes`
(skipped for an absent or empty `resourceType`, which is falsy). -/
def addResourceTypeAttr (req : AuthorizationRequest) (st5 : AttrMap × Nat) :
    AttrMap × Nat :=
  match req.resourceType with
  | some rty =>
    if rty = "" then st5
    else condAddAttr st5 "resource.resource_type"
      ⟨"dynamic-resource-type", "resource_type", "string", "resource", rty⟩
  | none => st5

/-- The currently-valid environment-attribute block of `gatherAttributes`. -/
def gatherEnvSection (db : Db) (st6 : AttrMap × Nat) :
    Except String (AttrMap × Nat) :=
  if st6.2 < MAX_ATTRIBUTES_PER_REQUEST then do
    let envAttrs ← db.envRows
    pure (addAttrsLoop "environment"
      ((envAttrs.filter (envRowValid db.nowTime)).map (fun r => r.attr)) st6)
  else pure st6

/-- `gatherAttributes` from `funcs.ts` (the uncached path): subject, role,
resource (stored attributes, then `resource.owner_id` and the derived
`resource.is_owner`), action (stored, then synthetic `action.action_name`),
the synthetic `resource.resource_type`, currently-valid environment
attributes, and the dynamic environment attributes — every insertion bounded
by `MAX_ATTRIBUTES_PER_REQUEST`. -/
def gatherAttributes (db : Db) (req : AuthorizationRequest) :
    Except String AttrMap := do
  let subjectAttrs ← db.userAttrs req.subjectId
  let st1 := addAttrsLoop "subject" subjectAttrs ([], 0)
  let roleAttrs ← db.roleAttrs req.subjectId
  let st2 := addAttrsLoop "subject" roleAttrs st1
  let st3 ← gatherResourceSection db req st2
  let st4 ← gatherActionSection db req st3
  let st5 := condAddAttr st4 "action.action_name"
    ⟨"dynamic-action-name", "action_name", "string", "action", req.actionName⟩
  let st6 := addResourceTypeAttr req st5
  let st7 ← gatherEnvSection db st6
  let st8 := addDynamicEnvironmentAttributes st7 req.context db.nowISO db.nowDay
  pure st8.1

/-- `findAttributeByName` from `funcs.ts`: scan the whole map in iteration
order and return the first entry whose attribute name matches. -/
def findAttributeByName (attributeName : String) (attributes : AttrMap) :
    Option AttributeValue :=
  (attributes.find? (fun p => p.2.name == attributeName)).map (fun p => p.2)

/-- `evaluateTargets` from `funcs.ts`. -/
def evaluateTargets (rt : String → String → Bool) (targets : List PolicyTarget)
    (attributes : AttrMap) : Bool :=
  if targets.length = 0 then true
  else
    targets.all (fun target =>
      if jsFalsyOptStr target.attributeId then true
      else
        match mapGet attributes (target.targetType ++ "." ++ target.attributeName) with
        | none => false
        | some attrv =>
          match OPERATORS rt target.operator with
          | none => false
          | some op => op attrv.value target.value)

/-- `rule.group_id || "default"`. -/
def ruleGroupId (rule : PolicyRule) : String :=
  jsOrStr rule.groupId "default"

/-- Insert a rule into the `Map<string, rule[]>` of rule groups. -/
def addToGroup (gs : List (String × List PolicyRule)) (gid : String)
    (rule : PolicyRule) : List (String × List PolicyRule) :=
  if gs.any (fun g => g.1 == gid) then
    gs.map (fun g => if g.1 == gid then (g.1, g.2 ++ [rule]) else g)
  else
    gs ++ [(gid, [rule])]

/-- The grouping loop of `evaluateRules`: partition by group id, first
encounter fixing a group's position, order inside a group preserved. -/
def ruleGroups (rules : List PolicyRule) : List (String × List PolicyRule) :=
  rules.foldl (fun gs rule => addToGroup gs (ruleGroupId rule) rule) []

/-- The `for (const [index, rule] of rules.entries())` loop of
`evaluateRuleGroup`, carrying the accumulator and the pending operator.
When the attribute is missing or the operator unknown the loop `continue`s:
under a pending `AND` the accumulator becomes `false` (else it is left
alone), and — crucially — the pending operator is *not* updated from that
rule's `logicalOperator`. -/
def evaluateRuleGroupLoop (rt : String → String → Bool) (attributes : AttrMap) :
    List PolicyRule → Bool → String → Bool
  | [], result, _ => result
  | rule :: rest, result, currentOperator =>
    match findAttributeByName rule.attributeName attributes with
    | none =>
      evaluateRuleGroupLoop rt attributes rest
        (if currentOperator = "AND" then false else result) currentOperator
    | some attrv =>
      match OPERATORS rt rule.operator with
      | none =>
        evaluateRuleGroupLoop rt attributes rest
          (if currentOperator = "AND" then false else result) currentOperator
      | some op =>
        let ruleResult := op attrv.value rule.value
        let newResult :=
          if currentOperator = "AND" then result && ruleResult
          else if currentOperator = "OR" then result || ruleResult
          else result
        evaluateRuleGroupLoop rt attributes rest newResult
          (jsOrStr rule.logicalOperator "AND")

/-- `evaluateRuleGroup` from `funcs.ts`. -/
def evaluateRuleGroup (rt : String → String → Bool) (rules : List PolicyRule)
    (attributes : AttrMap) : Bool :=
  if rules.length = 0 then true
  else evaluateRuleGroupLoop rt attributes rules true "AND"

/-- `evaluateRules` from `funcs.ts`: no rules means a vacuous match (with no
reason), otherwise the AND of all group verdicts. -/
def evaluateRules (rt : String → String → Bool) (rules : List PolicyRule)
    (attributes : AttrMap) : Bool × Option String :=
  if rules.length = 0 then (true, none)
  else
    let groups := ruleGroups rules
    let groupResults := groups.map (fun g => evaluateRuleGroup rt g.2 attributes)
    let finalResult := groupResults.all (fun r => r)
    (finalResult,
      some (if finalResult then "All rule conditions met"
            else "One or more rule conditions failed"))

/-- Insert `a` into an already-sorted list, before the first element it may
precede (`le a y`): the insertion step of a stable sort. -/
def insertStable (le : PolicyEvaluation → PolicyEvaluation → Bool)
    (a : PolicyEvaluation) : List PolicyEvaluation → List PolicyEvaluation
  | [] => [a]
  | y :: rest => if le a y then a :: y :: rest else y :: insertStable le a rest

/-- JavaScript `Array.prototype.sort` with a comparator inducing the total
preorder `le` (`le a b` ⇔ the comparator lets `a` come before `b`): the sort
is required to be stable and a stable sort by a total preorder is unique, so
stable insertion sort is exactly its semantics. -/
def stableSort (le : PolicyEvaluation → PolicyEvaluation → Bool) :
    List PolicyEvaluation → List PolicyEvaluation
  | [] => []
  | x :: xs => insertStable le x (stableSort le xs)

/-- `insertStable` for policy rows (the fetch order of the policy query). -/
def insertRowStable (le : PolicyRow → PolicyRow → Bool) (a : PolicyRow) :
    List PolicyRow → List PolicyRow
  | [] => [a]
  | y :: rest => if le a y then a :: y :: rest else y :: insertRowStable le a rest

/-- Stable sort of policy rows (see `stableSort`). -/
def stableRowSort (le : PolicyRow → PolicyRow → Bool) :
    List PolicyRow → List PolicyRow
  | [] => []
  | x :: xs => insertRowStable le x (stableRowSort le xs)

/-- The active-policy fetch of `findApplicablePolicies`
(`where is_active = 1 order by priority desc`; the sort is stable, ties
keeping table order). -/
def activePoliciesByPriority (db : Db) : Except String (List PolicyRow) := do
  let rows ← db.policyRows
  pure (stableRowSort (fun a b => decide (b.priority ≤ a.priority))
    (rows.filter (fun p => p.isActive == some 1)))

/-- The per-policy loop of `findApplicablePolicies`: fetch each policy's
rules and targets and skip policies that have no rules AND no targets. -/
def fetchPoliciesLoop (db : Db) : List PolicyRow → Except String (List PolicyWithRules)
  | [] => pure []
  | p :: rest => do
    let rules ← db.rulesFor p.id
    let targets ← db.targetsFor p.id
    let restOut ← fetchPoliciesLoop db rest
    if rules.length = 0 ∧ targets.length = 0 then pure restOut
    else pure (⟨p, rules, targets⟩ :: restOut)

/-- `findApplicablePolicies` from `funcs.ts`. -/
def findApplicablePolicies (db : Db) : Except String (List PolicyWithRules) := do
  let policies ← activePoliciesByPriority db
  fetchPoliciesLoop db policies

/-- `evaluatePolicies` from `funcs.ts`: drop policies whose targets do not
match, record an evaluation (with the rule verdict) for the rest. -/
def evaluatePolicies (rt : String → String → Bool)
    (policies : List PolicyWithRules) (attributes : AttrMap) :
    List PolicyEvaluation :=
  match policies with
  | [] => []
  | pd :: rest =>
    if evaluateTargets rt pd.targets attributes then
      let ruleMatches := evaluateRules rt pd.rules attributes
      { policyId := pd.policy.id
        policyName := pd.policy.name
        effect := pd.policy.effect
        matched := ruleMatches.1
        reason := ruleMatches.2 } :: evaluatePolicies rt rest attributes
    else evaluatePolicies rt rest attributes

/-- The `policyPriorityMap` construction of `makeFinalDecision`. -/
def buildPriorityMap (policies : List PolicyWithRules) : List (String × Int) :=
  policies.foldl
    (fun m p =>
      if m.any (fun q => q.1 == p.policy.id) then
        m.map (fun q => if q.1 == p.policy.id then (q.1, p.policy.priority) else q)
      else m ++ [(p.policy.id, p.policy.priority)])
    []

/-- `policyPriorityMap.get(e.policyId) || 0`. -/
def evalPriority (policies : List PolicyWithRules) (e : PolicyEvaluation) : Int :=
  jsOrNum (((buildPriorityMap policies).find? (fun q => q.1 == e.policyId)).map
    (fun q => q.2)) 0

/-- The non-empty tail shared by both decision resolvers: filter to matching
evaluations (deny with "No matching policies found" if none), stable-sort by
priority descending and take the effect of the head. -/
def resolveMatchingEvaluations (evaluations : List PolicyEvaluation)
    (policies : List PolicyWithRules) : String × String :=
  let matchingEvaluations := evaluations.filter (fun e => e.matched)
  if matchingEvaluations.length = 0 then
    ("deny", "No matching policies found")
  else
    let sortedEvaluations := stableSort
      (fun a b => decide (evalPriority policies b ≤ evalPriority policies a))
      matchingEvaluations
    let highestPriorityPolicy := sortedEvaluations.headD ⟨"", "", "", false, none⟩
    (if highestPriorityPolicy.effect = "permit" then "permit" else "deny",
      (if highestPriorityPolicy.effect = "permit" then "Permitted" else "Denied")
        ++ " by highest priority policy: " ++ highestPriorityPolicy.policyName)

/-- `makeFinalDecision` from `src/abac/funcs.ts`: an empty evaluation list
resolves to `deny` with "No applicable policies found". -/
def makeFinalDecision (evaluations : List PolicyEvaluation)
    (policies : List PolicyWithRules) : String × String :=
  if evaluations.length = 0 then ("deny", "No applicable policies found")
  else resolveMatchingEvaluations evaluations policies

/-- `makeFinalDecision` from the bundled `abac-funcs` document: identical
except that an empty evaluation list resolves to `not_applicable`. -/
def makeFinalDecisionVariant (evaluations : List PolicyEvaluation)
    (policies : List PolicyWithRules) : String × String :=
  if evaluations.length = 0 then ("not_applicable", "No applicable policies found")
  else resolveMatchingEvaluations evaluations policies

/-- The body of the `try` block of `canUserPerformAction`: gather attributes,
find applicable policies, evaluate them and resolve; yields the decision,
its reason and the applied-policy names.  (The audit write is fire-and-forget
with its own internal catch and does not influence the result.) -/
def runAuthorization (db : Db) (request : AuthorizationRequest) :
    Except String (String × String × List String) := do
  let attributes ← gatherAttributes db request
  let applicablePolicies ← findApplicablePolicies db
  let policyEvaluations := evaluatePolicies db.regexTest applicablePolicies attributes
  let decision := makeFinalDecision policyEvaluations applicablePolicies
  pure (decision.1, decision.2, policyEvaluations.map (fun p => p.policyName))

/-- `canUserPerformAction` from `funcs.ts`: the catch-all converts any thrown
error into an `indeterminate` result carrying the error message, an empty
applied-policy list and the elapsed time. -/
def canUserPerformAction (db : Db) (request : AuthorizationRequest)
    (processingTimeMs : Nat) : AuthorizationResult :=
  match runAuthorization db request with
  | .ok (d, r, applied) =>
    { decision := d, reason := some r, appliedPolicies := applied
      processingTimeMs := processingTimeMs }
  | .error e =>
    { decision := "indeterminate"
      reason := some ("Authorization error: " ++ e)
      appliedPolicies := []
      processingTimeMs := processingTimeMs }

/-- `ctx.body.subjectId ?? ctx.context.session?.user?.id` from the plugin
endpoints (nullish coalescing: only `none` falls through to the session). -/
def endpointSubjectId (bodySubjectId sessionUserId : Option String) : Option String :=
  match bodySubjectId with
  | some s => some s
  | none => sessionUserId

/-- The endpoint guard `if (!subjectId) throw BAD_REQUEST` from the plugin:
a missing or empty subject id is rejected before the core is called. -/
def endpointCheckSubject (bodySubjectId sessionUserId : Option String) :
    Except String String :=
  match endpointSubjectId bodySubjectId sessionUserId with
  | none => .error "No Subject ID provided or found in session."
  | some sid =>
    if sid = "" then .error "No Subject ID provided or found in session."
    else .ok sid

/-! ### Verification-layer definitions -/

/-- The invariant threaded through `gatherAttributes`: the map never has more
entries than insertions were counted, and the count never passes the cap. -/
def StInv (st : AttrMap × Nat) : Prop :=
  st.1.length ≤ st.2 ∧ st.2 ≤ MAX_ATTRIBUTES_PER_REQUEST

/-- The target matcher exactly as the specification words it (§4.2), for
comparison with `evaluateTargets`: every target looks its key up in the map,
an absent key or unknown operator fails the target, and the policy is
applicable only if all targets succeed. -/
def specTargetMatch (rt : String → String → Bool) (targets : List PolicyTarget)
    (attributes : AttrMap) : Bool :=
  targets.all (fun target =>
    match mapGet attributes (target.targetType ++ "." ++ target.attributeName) with
    | none => false
    | some attrv =>
      match OPERATORS rt target.operator with
      | none => false
      | some op => op attrv.value target.value)

/-- The rule-group fold exactly as the specification words it (§4.3 step 2),
for comparison with `evaluateRuleGroup`: every rule contributes (`false` when
its attribute is missing or its operator unknown), the contribution folds into
the accumulator through the pending operator, and the pending operator is then
set from this rule's own `logicalOperator` — for every rule, resolved or not.
`specRuleStep` is one step of that fold. -/
def specRuleStep (rt : String → String → Bool) (attributes : AttrMap)
    (acc : Bool × String) (rule : PolicyRule) : Bool × String :=
  let contribution :=
    match findAttributeByName rule.attributeName attributes with
    | none => false
    | some attrv =>
      match OPERATORS rt rule.operator with
      | none => false
      | some op => op attrv.value rule.value
  ((if acc.2 = "AND" then acc.1 && contribution else acc.1 || contribution),
    jsOrStr rule.logicalOperator "AND")

def specRuleGroupFold (rt : String → String → Bool) (rules : List PolicyRule)
    (attributes : AttrMap) : Bool :=
  (rules.foldl (specRuleStep rt attributes) (true, "AND")).1

/-- A regular-expression tester for concrete runs in which no `regex` rule
occurs. -/
def noRegex : String → String → Bool := fun _ _ => false

/-- A storage adapter with no stored data at all. -/
def emptyDb : Db :=
  { userAttrs := fun _ => .ok []
    roleAttrs := fun _ => .ok []
    resourceAttrs := fun _ => .ok []
    resourceOwner := fun _ => .ok none
    actionAttrs := fun _ => .ok []
    envRows := .ok []
    policyRows := .ok []
    rulesFor := fun _ => .ok []
    targetsFor := fun _ => .ok []
    nowISO := "2026-01-01T00:00:00.000Z"
    nowDay := "4"
    nowTime := 0
    regexTest := noRegex }

/-- An adapter whose only datum is that resource `r1` is owned by `u1`. -/
def dbOwned : Db :=
  { emptyDb with
    resourceOwner := fun r => if r = "r1" then .ok (some "u1") else .ok none }

/-- A request for action `read` with no resource. -/
def reqRead : AuthorizationRequest := ⟨"u1", none, none, "read", []⟩

/-- A policy row named like its id. -/
def mkPolicy (i eff : String) (pri : Int) : PolicyRow :=
  ⟨i, i, none, eff, pri, some 1, "ps1"⟩

/-- A target requiring `action.action_name equals read` (always satisfied by
a `read` request via the synthetic attribute). -/
def tActionRead : PolicyTarget :=
  ⟨"t1", "action", some "tg1", some "attr-action-name", "equals", "read", "action_name"⟩

/-- Two matching policies: `p1` permit, `p2` deny priority 20; `p1`'s
priority is the parameter. -/
def dbTwoPolicies (p1pri : Int) : Db :=
  { emptyDb with
    policyRows := .ok [mkPolicy "p1" "permit" p1pri, mkPolicy "p2" "deny" 20]
    targetsFor := fun _ => .ok [tActionRead] }

/-- The concrete-scenario adapter of the specification: role attribute
`clearance = 2`, one active policy `p1` whose single rule requires
`clearance equals 5` (evaluated but non-matching). -/
def dbClearance : Db :=
  { emptyDb with
    roleAttrs := fun u =>
      if u = "u1" then .ok [⟨"attr-clearance", "clearance", "number", "subject", "2"⟩]
      else .ok []
    policyRows := .ok [mkPolicy "p1" "permit" 50]
    rulesFor := fun _ =>
      .ok [⟨"r1", "attr-clearance", "equals", "5", none, none, "clearance"⟩] }

/-- An adapter whose subject-attribute query throws. -/
def dbBroken : Db :=
  { emptyDb with userAttrs := fun _ => .error "Database connection failed" }

/-- Rule with a missing attribute carrying `logicalOperator = OR`, followed by
a satisfied rule — the input on which the loop's skipped operator update shows. -/
def c4MissingRule : PolicyRule := ⟨"r1", "a-missing", "equals", "1", some "OR", none, "missing"⟩

/-- A rule on attribute `x` satisfied by the map below. -/
def c4PresentRule : PolicyRule := ⟨"r2", "a-x", "equals", "1", none, none, "x"⟩

/-- An attribute map holding only `subject.x = "1"`. -/
def c4Attrs : AttrMap := [("subject.x", ⟨"a-x", "x", "string", "subject", "1"⟩)]

/-- Group `g1`, first rule, joined to the next by `OR`. -/
def g1r1 : PolicyRule := ⟨"r1", "aa", "equals", "1", some "OR", some "g1", "a"⟩

/-- Group `g1`, second rule. -/
def g1r2 : PolicyRule := ⟨"r2", "ab", "equals", "1", none, some "g1", "b"⟩

/-- Group `g2`, single rule. -/
def g2r3 : PolicyRule := ⟨"r3", "ac", "equals", "1", none, some "g2", "c"⟩

/-- Attributes `a`, `b`, `c` with the given values. -/
def c4GroupAttrs (v1 v2 v3 : String) : AttrMap :=
  [("subject.a", ⟨"aa", "a", "string", "subject", v1⟩),
   ("subject.b", ⟨"ab", "b", "string", "subject", v2⟩),
   ("subject.c", ⟨"ac", "c", "string", "subject", v3⟩)]

/-- A target with no attribute reference (`attribute_id` null). -/
def c5NullTarget : PolicyTarget := ⟨"t1", "subject", none, none, "equals", "1", "x"⟩

/-- 99 distinct stored subject attributes `a0 … a98`. -/
def manySubjectAttrs (n : Nat) : List AttributeValue :=
  (List.range n).map (fun i => ⟨s!"a{i}", s!"a{i}", "string", "subject", "v"⟩)

/-- An adapter with 99 stored subject attributes and a resource `r1` owned by
`u1`: the ownership block runs with the counter at 99, inserts
`resource.owner_id` as the 100th attribute, and skips `resource.is_owner`. -/
def dbNearCap : Db :=
  { emptyDb with
    userAttrs := fun u => if u = "u1" then .ok (manySubjectAttrs 99) else .ok []
    resourceOwner := fun r => if r = "r1" then .ok (some "u1") else .ok none }

/-- The request addressing `r1` as its owner `u1`. -/
def reqOwnedResource : AuthorizationRequest := ⟨"u1", some "r1", none, "read", []⟩

/-- An adapter with 100 stored subject attributes: the cap is reached before
any synthetic attribute is added. -/
def dbAtCap : Db :=
  { emptyDb with
    userAttrs := fun u => if u = "u1" then .ok (manySubjectAttrs 100) else .ok [] }

/-- One permissive active policy applicable to every `read` request. -/
def dbPermissive : Db :=
  { emptyDb with
    policyRows := .ok [mkPolicy "p1" "permit" 50]
    targetsFor := fun _ => .ok [tActionRead] }

/-- A request whose subject identifier is the empty string. -/
def reqEmptySubject : AuthorizationRequest := ⟨"", none, none, "read", []⟩

/-! ### Basic lemmas about the map and the bounded insertion loops -/

theorem length_mapSet_le (m : AttrMap) (k : String) (v : AttributeValue) :
    (mapSet m k v).length ≤ m.length + 1 := by
  unfold mapSet
  split
  · rw [List.length_map]; omega
  · rw [List.length_append]; simp

theorem find?_set_self (m : AttrMap) (k : String) (v : AttributeValue)
    (hany : m.any (fun p => p.1 == k) = true) :
    (m.map (fun p => if p.1 == k then (k, v) else p)).find? (fun p => p.1 == k)
      = some (k, v) := by
  induction m with
  | nil => simp at hany
  | cons p rest ih =>
    simp only [List.any_cons, Bool.or_eq_true] at hany
    simp only [List.map_cons, List.find?_cons]
    by_cases hp : p.1 = k
    · have hb : (p.1 == k) = true := beq_iff_eq.mpr hp
      rw [if_pos hb]
      simp only [beq_self_eq_true]
    · have hb : (p.1 == k) = false := beq_eq_false_iff_ne.mpr hp
      rw [if_neg (by simp [hb])]
      simp only [hb]
      exact ih (hany.resolve_left (by simp [hb]))

theorem mapGet_mapSet_self (m : AttrMap) (k : String) (v : AttributeValue) :
    mapGet (mapSet m k v) k = some v := by
  unfold mapSet mapGet
  by_cases hany : m.any (fun p => p.1 == k) = true
  · rw [if_pos hany, find?_set_self m k v hany]
    rfl
  · rw [if_neg hany, List.find?_append]
    have hnone : m.find? (fun p => p.1 == k) = none := by
      rw [List.find?_eq_none]
      intro x hx hpx
      exact hany (List.any_eq_true.mpr ⟨x, hx, hpx⟩)
    rw [hnone]
    simp only [List.find?_cons, beq_self_eq_true, Option.none_or]
    rfl

theorem find?_setmap_ne (m : AttrMap) {k km : String} (v : AttributeValue)
    (h : ¬km = k) :
    (m.map (fun p => if p.1 == km then (km, v) else p)).find? (fun p => p.1 == k)
      = m.find? (fun p => p.1 == k) := by
  have hbk : (km == k) = false := beq_eq_false_iff_ne.mpr h
  induction m with
  | nil => rfl
  | cons p rest ih =>
    simp only [List.map_cons, List.find?_cons]
    by_cases hp : p.1 = km
    · have hb : (p.1 == km) = true := beq_iff_eq.mpr hp
      rw [if_pos hb]
      have h2 : (p.1 == k) = false := by rw [hp]; exact hbk
      simp only [h2, hbk]
      exact ih
    · have hb : (p.1 == km) = false := beq_eq_false_iff_ne.mpr hp
      rw [if_neg (by simp [hb])]
      by_cases hpk : p.1 = k
      · simp only [beq_iff_eq.mpr hpk]
      · simp only [beq_eq_false_iff_ne.mpr hpk]
        exact ih

theorem mapGet_mapSet_ne (m : AttrMap) {k km : String} (v : AttributeValue)
    (h : ¬km = k) : mapGet (mapSet m km v) k = mapGet m k := by
  unfold mapSet mapGet
  split
  · rw [find?_setmap_ne m v h]
  · rw [List.find?_append]
    have hbk : (km == k) = false := beq_eq_false_iff_ne.mpr h
    have hone : List.find? (fun p => p.1 == k) [(km, v)] = none := by
      simp only [List.find?_cons, hbk]
      rfl
    rw [hone, Option.or_none]

theorem stInv_mapSet {st : AttrMap × Nat} (hlt : st.2 < MAX_ATTRIBUTES_PER_REQUEST)
    (hinv : StInv st) (k : String) (v : AttributeValue) :
    StInv (mapSet st.1 k v, st.2 + 1) := by
  obtain ⟨h1, h2⟩ := hinv
  constructor
  · have h3 := length_mapSet_le st.1 k v
    exact Nat.le_trans h3 (Nat.add_le_add_right h1 1)
  · exact Nat.succ_le_of_lt hlt

theorem stInv_safelyAdd {st : AttrMap × Nat} (hinv : StInv st) (k : String)
    (v : AttributeValue) : StInv (safelyAddAttribute st k v).1 := by
  unfold safelyAddAttribute
  split
  · exact hinv
  · exact stInv_mapSet (by omega) hinv k v

theorem stInv_addAttrsLoop (pre : String) (rows : List AttributeValue)
    {st : AttrMap × Nat} (hinv : StInv st) : StInv (addAttrsLoop pre rows st) := by
  induction rows generalizing st with
  | nil => exact hinv
  | cons a rest ih =>
    simp only [addAttrsLoop]
    split
    · exact ih (stInv_safelyAdd hinv _ _)
    · exact stInv_safelyAdd hinv _ _

theorem stInv_ctxLoop (ctx : List (String × String)) {st : AttrMap × Nat}
    (hinv : StInv st) : StInv (ctxLoop ctx st) := by
  induction ctx generalizing st with
  | nil => exact hinv
  | cons e rest ih =>
    unfold ctxLoop
    split
    · exact hinv
    · exact ih (stInv_mapSet (by omega) hinv _ _)

theorem stInv_condAdd {st : AttrMap × Nat} (hinv : StInv st) (k : String)
    (v : AttributeValue) : StInv (condAddAttr st k v) := by
  unfold condAddAttr
  split
  · exact stInv_mapSet (by omega) hinv k v
  · exact hinv

theorem stInv_addDynamic (ctx : List (String × String)) (nowISO nowDay : String)
    {st : AttrMap × Nat} (hinv : StInv st) :
    StInv (addDynamicEnvironmentAttributes st ctx nowISO nowDay) := by
  unfold addDynamicEnvironmentAttributes
  dsimp only
  split
  · exact stInv_ctxLoop _ (stInv_condAdd (stInv_condAdd hinv _ _) _ _)
  · exact stInv_condAdd (stInv_condAdd hinv _ _) _ _

theorem bind_ok_inv {α β : Type} {res : Except String α} {f : α → Except String β}
    {b : β} (h : (res >>= f) = .ok b) : ∃ a, res = .ok a ∧ f a = .ok b := by
  cases res with
  | error e => simp [Bind.bind, Except.bind] at h
  | ok a => exact ⟨a, rfl, by simpa [Bind.bind, Except.bind] using h⟩

theorem pure_ok_inv {α : Type} {a b : α} (h : (pure a : Except String α) = .ok b) :
    a = b := by
  simpa [Pure.pure, Except.pure] using h

theorem stInv_init : StInv (([] : AttrMap), 0) := by
  constructor
  · exact Nat.le_refl 0
  · exact Nat.zero_le _


theorem stInv_resourceSection (db : Db) (req : AuthorizationRequest)
    {st2 st3 : AttrMap × Nat} (hinv : StInv st2)
    (h : gatherResourceSection db req st2 = .ok st3) : StInv st3 := by
  unfold gatherResourceSection at h
  split at h
  case _ rid =>
    split at h
    case isTrue hcond =>
      obtain ⟨rsa, hrs, h⟩ := bind_ok_inv h
      dsimp only at h
      have hstr : StInv (addAttrsLoop "resource" rsa st2) := stInv_addAttrsLoop _ _ hinv
      split at h
      case isTrue hlt =>
        obtain ⟨own, how, h⟩ := bind_ok_inv h
        cases own with
        | some ownerId =>
          dsimp only at h
          rw [← pure_ok_inv h]
          exact stInv_condAdd (stInv_mapSet hlt hstr _ _) _ _
        | none =>
          rw [← pure_ok_inv h]
          exact hstr
      case isFalse =>
        rw [← pure_ok_inv h]
        exact hstr
    case isFalse =>
      rw [← pure_ok_inv h]
      exact hinv
  case _ =>
    rw [← pure_ok_inv h]
    exact hinv

theorem stInv_actionSection (db : Db) (req : AuthorizationRequest)
    {st3 st4 : AttrMap × Nat} (hinv : StInv st3)
    (h : gatherActionSection db req st3 = .ok st4) : StInv st4 := by
  unfold gatherActionSection at h
  split at h
  · obtain ⟨aa, haa, h⟩ := bind_ok_inv h
    try dsimp only at h
    rw [← pure_ok_inv h]
    exact stInv_addAttrsLoop _ _ hinv
  · rw [← pure_ok_inv h]
    exact hinv

theorem stInv_addResourceType (req : AuthorizationRequest) {st5 : AttrMap × Nat}
    (hinv : StInv st5) : StInv (addResourceTypeAttr req st5) := by
  unfold addResourceTypeAttr
  split
  · split
    · exact hinv
    · exact stInv_condAdd hinv _ _
  · exact hinv

theorem stInv_envSection (db : Db) {st6 st7 : AttrMap × Nat} (hinv : StInv st6)
    (h : gatherEnvSection db st6 = .ok st7) : StInv st7 := by
  unfold gatherEnvSection at h
  split at h
  · obtain ⟨er, her, h⟩ := bind_ok_inv h
    try dsimp only at h
    rw [← pure_ok_inv h]
    exact stInv_addAttrsLoop _ _ hinv
  · rw [← pure_ok_inv h]
    exact hinv

theorem gatherAttributes_length_le (db : Db) (req : AuthorizationRequest)
    (m : AttrMap) (h : gatherAttributes db req = .ok m) :
    m.length ≤ MAX_ATTRIBUTES_PER_REQUEST := by
  unfold gatherAttributes at h
  obtain ⟨sa, hu, h⟩ := bind_ok_inv h
  try dsimp only at h
  obtain ⟨ra, hr, h⟩ := bind_ok_inv h
  try dsimp only at h
  obtain ⟨st3, h3, h⟩ := bind_ok_inv h
  try dsimp only at h
  obtain ⟨st4, h4, h⟩ := bind_ok_inv h
  try dsimp only at h
  obtain ⟨st7, h7, h⟩ := bind_ok_inv h
  try dsimp only at h
  rw [← pure_ok_inv h]
  have hst2 : StInv (addAttrsLoop "subject" ra (addAttrsLoop "subject" sa ([], 0))) :=
    stInv_addAttrsLoop _ _ (stInv_addAttrsLoop _ _ stInv_init)
  have hst3 := stInv_resourceSection db req hst2 h3
  have hst4 := stInv_actionSection db req hst3 h4
  have hst6 := stInv_addResourceType req (stInv_condAdd hst4 "action.action_name"
    ⟨"dynamic-action-name", "action_name", "string", "action", req.actionName⟩)
  have hst7 := stInv_envSection db hst6 h7
  have hfin := stInv_addDynamic req.context db.nowISO db.nowDay hst7
  exact Nat.le_trans hfin.1 hfin.2

/-- C2: whenever the candidate evaluation list is non-empty but no evaluation
matched, `makeFinalDecision` returns `deny` with reason "No matching policies
found" — absence of a matching permit never yields permit (deny-by-default);
concretely, the clearance scenario (rule `clearance equals 5` against a stored
`clearance = 2`) is denied with `appliedPolicies = ["p1"]`. -/
theorem deny_when_no_matching_policies :
    (∀ (evaluations : List PolicyEvaluation) (policies : List PolicyWithRules),
      evaluations ≠ [] → (∀ e ∈ evaluations, e.matched = false) →
      makeFinalDecision evaluations policies = ("deny", "No matching policies found")) ∧
    canUserPerformAction dbClearance reqRead 5 =
      { decision := "deny", reason := some "No matching policies found"
        appliedPolicies := ["p1"], processingTimeMs := 5 } := by
  constructor
  · intro evaluations policies hne hall
    unfold makeFinalDecision
    rw [if_neg (by simpa [List.length_eq_zero] using hne)]
    unfold resolveMatchingEvaluations
    have hfil : evaluations.filter (fun e => e.matched) = [] := by
      rw [List.filter_eq_nil_iff]
      intro a ha
      simp [hall a ha]
    dsimp only
    rw [hfil]
    rfl
  · rfl

theorem deny_when_no_matching_policies_witness :
    makeFinalDecision [⟨"p1", "p1", "permit", false, none⟩] [] =
      ("deny", "No matching policies found") :=
  deny_when_no_matching_policies.1 [⟨"p1", "p1", "permit", false, none⟩] []
    (by decide) (by decide)

/-- C3 counterexample: on an empty candidate evaluation list the decision
resolver of `src/abac/funcs.ts` returns `deny` (reason "No applicable policies
found"), not `not_applicable` as the claim states. -/
theorem empty_candidates_not_notApplicable :
    makeFinalDecision [] [] = ("deny", "No applicable policies found") ∧
    (makeFinalDecision [] []).1 ≠ "not_applicable" := by
  decide

/-- C3 amended: for an empty candidate evaluation list, the resolver of
`src/abac/funcs.ts` returns `deny` with reason "No applicable policies found",
while the variant resolver in the bundled `abac-funcs` document returns
`not_applicable` with the same reason. -/
theorem empty_candidates_resolution :
    ∀ policies : List PolicyWithRules,
      makeFinalDecision [] policies = ("deny", "No applicable policies found") ∧
      makeFinalDecisionVariant [] policies = ("not_applicable", "No applicable policies found") := by
  intro policies
  exact ⟨rfl, rfl⟩

theorem empty_candidates_resolution_witness :
    makeFinalDecision [] [] = ("deny", "No applicable policies found") ∧
    makeFinalDecisionVariant [] [] = ("not_applicable", "No applicable policies found") :=
  empty_candidates_resolution []

/-- C7: whenever any step of the authorization pipeline throws,
`canUserPerformAction` returns (never throws) `indeterminate` with the error
message in the reason, an empty applied-policy list and the elapsed time; the
elapsed time is reported in every outcome. -/
theorem errors_yield_indeterminate :
    (∀ (db : Db) (req : AuthorizationRequest) (t : Nat) (e : String),
      runAuthorization db req = .error e →
      canUserPerformAction db req t =
        { decision := "indeterminate", reason := some ("Authorization error: " ++ e)
          appliedPolicies := [], processingTimeMs := t }) ∧
    (∀ (db : Db) (req : AuthorizationRequest) (t : Nat),
      (canUserPerformAction db req t).processingTimeMs = t) := by
  constructor
  · intro db req t e h
    unfold canUserPerformAction
    rw [h]
  · intro db req t
    unfold canUserPerformAction
    split <;> rfl

theorem errors_yield_indeterminate_witness :
    canUserPerformAction dbBroken reqRead 7 =
      { decision := "indeterminate"
        reason := some "Authorization error: Database connection failed"
        appliedPolicies := [], processingTimeMs := 7 } :=
  errors_yield_indeterminate.1 dbBroken reqRead 7 "Database connection failed" rfl

/-- C9 counterexample: the core entry point `canUserPerformAction` does not
reject an empty subject identifier — a request with `subjectId = ""` flows
through the full evaluation pipeline and is here even permitted, with
`appliedPolicies = ["p1"]`, so no rejection happened before evaluation. -/
theorem core_accepts_empty_subject :
    (canUserPerformAction dbPermissive reqEmptySubject 3).decision = "permit" ∧
    (canUserPerformAction dbPermissive reqEmptySubject 3).appliedPolicies = ["p1"] ∧
    reqEmptySubject.subjectId = "" := by
  refine ⟨rfl, rfl, rfl⟩

/-- C9 amended: the empty/absent-subject rejection lives only in the
transport layer: the plugin endpoint guard errors with "No Subject ID provided
or found in session." exactly when the resolved subject id is falsy, while the
core evaluates an empty-subject request normally (its result is exactly what
the evaluation pipeline computes). -/
theorem subject_validation_at_endpoint :
    (∀ b s : Option String, jsFalsyOptStr (endpointSubjectId b s) = true ↔
      endpointCheckSubject b s = .error "No Subject ID provided or found in session.") ∧
    (∀ (db : Db) (req : AuthorizationRequest) (t : Nat) (d : String × String × List String),
      req.subjectId = "" → runAuthorization db req = .ok d →
      canUserPerformAction db req t =
        { decision := d.1, reason := some d.2.1, appliedPolicies := d.2.2
          processingTimeMs := t }) := by
  constructor
  · intro b s
    constructor
    · intro h
      unfold endpointCheckSubject
      cases he : endpointSubjectId b s with
      | none => rfl
      | some sid =>
        rw [he] at h
        simp only [jsFalsyOptStr, beq_iff_eq] at h
        simp [h]
    · intro h
      unfold endpointCheckSubject at h
      cases he : endpointSubjectId b s with
      | none => simp [jsFalsyOptStr]
      | some sid =>
        rw [he] at h
        dsimp only at h
        by_cases hs : sid = ""
        · simp [jsFalsyOptStr, hs]
        · rw [if_neg hs] at h
          cases h
  · intro db req t d hsub h
    unfold canUserPerformAction
    rw [h]

theorem subject_validation_at_endpoint_witness :
    canUserPerformAction dbPermissive reqEmptySubject 11 =
      { decision := "permit"
        reason := some "Permitted by highest priority policy: p1"
        appliedPolicies := ["p1"], processingTimeMs := 11 } :=
  subject_validation_at_endpoint.2 dbPermissive reqEmptySubject 11
    ("permit", "Permitted by highest priority policy: p1", ["p1"]) rfl rfl

/-- C5 counterexample: a target whose `attribute_id` is null passes
vacuously even though its key is absent from the (empty) attribute map, so
`evaluateTargets` returns `true` where the claim's per-target criterion
(absent key ⇒ target fails) yields `false`. -/
theorem target_null_attributeId_vacuous :
    evaluateTargets noRegex [c5NullTarget] [] = true ∧
    specTargetMatch noRegex [c5NullTarget] [] = false := by
  exact ⟨rfl, rfl⟩

theorem all_congr_mem {α : Type} (l : List α) (f g : α → Bool)
    (h : ∀ x ∈ l, f x = g x) : l.all f = l.all g := by
  induction l with
  | nil => rfl
  | cons a rest ih =>
    simp only [List.all_cons]
    rw [h a (List.mem_cons_self a rest), ih (fun x hx => h x (List.mem_cons_of_mem a hx))]

/-- C5 amended: an empty target list yields `true`; and for target lists in
which every target carries an attribute reference (non-falsy `attribute_id` —
true of all targets produced by the inner-join fetch), the matcher agrees with
the spec's per-target criterion: absent key fails, unknown operator fails,
otherwise the operator applied to (attribute value, target value) decides, and
all targets must succeed.  A target with a falsy `attribute_id` succeeds
vacuously. -/
theorem target_matcher_semantics :
    (∀ (rt : String → String → Bool) (attributes : AttrMap),
      evaluateTargets rt [] attributes = true) ∧
    (∀ (rt : String → String → Bool) (targets : List PolicyTarget) (attributes : AttrMap),
      (∀ t ∈ targets, jsFalsyOptStr t.attributeId = false) →
      evaluateTargets rt targets attributes = specTargetMatch rt targets attributes) := by
  constructor
  · intro rt attributes
    rfl
  · intro rt targets attributes h
    unfold evaluateTargets specTargetMatch
    split
    · rename_i hlen
      rw [List.length_eq_zero] at hlen
      subst hlen
      rfl
    · apply all_congr_mem
      intro t ht
      rw [h t ht]
      simp only [Bool.false_eq_true, if_neg]
      simp

theorem target_matcher_semantics_witness :
    evaluateTargets noRegex [tActionRead] [] = specTargetMatch noRegex [tActionRead] [] :=
  target_matcher_semantics.2 noRegex [tActionRead] [] (by decide)

/-- C4 counterexample: on a group whose first rule has a missing attribute
and `logicalOperator = OR`, followed by a satisfied rule, the code yields
`false` while the claim's fold (which would update the pending operator from
the unresolved rule's `logicalOperator`) yields `true`: the loop skips the
pending-operator update when a rule's attribute is missing or its operator is
unknown. -/
theorem ruleGroup_fold_diverges_from_spec :
    evaluateRuleGroup noRegex [c4MissingRule, c4PresentRule] c4Attrs = false ∧
    specRuleGroupFold noRegex [c4MissingRule, c4PresentRule] c4Attrs = true := by
  exact ⟨rfl, rfl⟩

theorem ruleGroupLoop_eq_fold (rt : String → String → Bool) (attributes : AttrMap)
    (rules : List PolicyRule) :
    ∀ (result : Bool) (currentOperator : String),
      (∀ r ∈ rules, findAttributeByName r.attributeName attributes ≠ none ∧
        OPERATORS rt r.operator ≠ none ∧
        (jsOrStr r.logicalOperator "AND" = "AND" ∨ jsOrStr r.logicalOperator "AND" = "OR")) →
      (currentOperator = "AND" ∨ currentOperator = "OR") →
      evaluateRuleGroupLoop rt attributes rules result currentOperator =
        (rules.foldl (specRuleStep rt attributes) (result, currentOperator)).1 := by
  induction rules with
  | nil =>
    intro result currentOperator hres hcur
    rfl
  | cons r rest ih =>
    intro result currentOperator hres hcur
    obtain ⟨hfind, hop, hlog⟩ := hres r (List.mem_cons_self r rest)
    obtain ⟨a, ha⟩ := Option.ne_none_iff_exists'.mp hfind
    obtain ⟨op, hopx⟩ := Option.ne_none_iff_exists'.mp hop
    have hrest : ∀ x ∈ rest, findAttributeByName x.attributeName attributes ≠ none ∧
        OPERATORS rt x.operator ≠ none ∧
        (jsOrStr x.logicalOperator "AND" = "AND" ∨ jsOrStr x.logicalOperator "AND" = "OR") :=
      fun x hx => hres x (List.mem_cons_of_mem r hx)
    simp only [evaluateRuleGroupLoop, ha, hopx, List.foldl_cons]
    have hstep : specRuleStep rt attributes (result, currentOperator) r =
        ((if currentOperator = "AND" then result && op a.value r.value
          else result || op a.value r.value), jsOrStr r.logicalOperator "AND") := by
      unfold specRuleStep
      simp only [ha, hopx]
    rw [hstep]
    rcases hcur with hA | hO
    · rw [hA]
      simp only [if_pos rfl]
      exact ih (result && op a.value r.value) _ hrest hlog
    · rw [hO]
      have h1 : ¬("OR" = "AND") := by decide
      rw [if_neg h1, if_neg h1, if_pos rfl]
      exact ih (result || op a.value r.value) _ hrest hlog

/-- C4 amended: the group verdict is the claimed left fold whenever every
rule in the group resolves (attribute found, operator known, and its
`logicalOperator` defaulting to AND/OR); in general, a rule whose attribute is
missing or whose operator is unknown contributes by setting the accumulator to
`false` when the pending operator is AND (leaving it unchanged under OR) and
leaves the pending operator unchanged for the next rule; the policy verdict is
the AND of all group verdicts — two OR-joined rules in `g1` plus one rule in
`g2` require (rule1 OR rule2) AND rule3. -/
theorem ruleGroup_fold_semantics :
    (∀ (rt : String → String → Bool) (rules : List PolicyRule) (attributes : AttrMap),
      (∀ r ∈ rules, findAttributeByName r.attributeName attributes ≠ none ∧
        OPERATORS rt r.operator ≠ none ∧
        (jsOrStr r.logicalOperator "AND" = "AND" ∨ jsOrStr r.logicalOperator "AND" = "OR")) →
      evaluateRuleGroup rt rules attributes = specRuleGroupFold rt rules attributes) ∧
    (∀ (rt : String → String → Bool) (attributes : AttrMap) (rule : PolicyRule)
        (rest : List PolicyRule) (result : Bool) (currentOperator : String),
      findAttributeByName rule.attributeName attributes = none →
      evaluateRuleGroupLoop rt attributes (rule :: rest) result currentOperator =
        evaluateRuleGroupLoop rt attributes rest
          (if currentOperator = "AND" then false else result) currentOperator) ∧
    (∀ (rt : String → String → Bool) (v1 v2 v3 : String),
      (evaluateRules rt [g1r1, g1r2, g2r3] (c4GroupAttrs v1 v2 v3)).1 =
        (((v1 == "1") || (v2 == "1")) && (v3 == "1"))) := by
  refine ⟨?_, ?_, ?_⟩
  · intro rt rules attributes h
    unfold evaluateRuleGroup specRuleGroupFold
    split
    · rename_i hlen
      rw [List.length_eq_zero] at hlen
      subst hlen
      rfl
    · exact ruleGroupLoop_eq_fold rt attributes rules true "AND" h (Or.inl rfl)
  · intro rt attributes rule rest result currentOperator h
    simp only [evaluateRuleGroupLoop, h]
  · intro rt v1 v2 v3
    simp [evaluateRules, ruleGroups, addToGroup, ruleGroupId, jsOrStr,
      evaluateRuleGroup, evaluateRuleGroupLoop, findAttributeByName, OPERATORS,
      g1r1, g1r2, g2r3, c4GroupAttrs, List.find?]

theorem ruleGroup_fold_semantics_witness :
    evaluateRuleGroup noRegex [c4PresentRule] c4Attrs =
      specRuleGroupFold noRegex [c4PresentRule] c4Attrs :=
  ruleGroup_fold_semantics.1 noRegex [c4PresentRule] c4Attrs (by
    intro r hr
    rw [List.mem_singleton] at hr
    subst hr
    refine ⟨by simp [findAttributeByName, c4Attrs, c4PresentRule],
      by simp [OPERATORS, c4PresentRule], Or.inl rfl⟩)

theorem insertStable_perm (le : PolicyEvaluation → PolicyEvaluation → Bool)
    (a : PolicyEvaluation) (l : List PolicyEvaluation) :
    (insertStable le a l).Perm (a :: l) := by
  induction l with
  | nil => exact List.Perm.refl _
  | cons y rest ih =>
    unfold insertStable
    split
    · exact List.Perm.refl _
    · exact (List.Perm.cons y ih).trans (List.Perm.swap a y rest)

theorem stableSort_perm (le : PolicyEvaluation → PolicyEvaluation → Bool)
    (l : List PolicyEvaluation) : (stableSort le l).Perm l := by
  induction l with
  | nil => exact List.Perm.refl _
  | cons x xs ih =>
    exact (insertStable_perm le x (stableSort le xs)).trans (ih.cons x)

theorem pairwise_insertStable (le : PolicyEvaluation → PolicyEvaluation → Bool)
    (htrans : ∀ a b c, le a b = true → le b c = true → le a c = true)
    (htotal : ∀ a b, le a b = true ∨ le b a = true)
    (a : PolicyEvaluation) (l : List PolicyEvaluation)
    (h : l.Pairwise (fun x y => le x y = true)) :
    (insertStable le a l).Pairwise (fun x y => le x y = true) := by
  induction l with
  | nil => simp [insertStable]
  | cons y rest ih =>
    rcases List.pairwise_cons.mp h with ⟨hy, hrest⟩
    unfold insertStable
    split
    · rename_i hay
      refine List.pairwise_cons.mpr ⟨?_, h⟩
      intro z hz
      rcases List.mem_cons.mp hz with rfl | hz2
      · exact hay
      · exact htrans a y z hay (hy z hz2)
    · rename_i hay
      have hya : le y a = true := (htotal a y).resolve_left hay
      refine List.pairwise_cons.mpr ⟨?_, ih hrest⟩
      intro z hz
      have hz2 := (insertStable_perm le a rest).mem_iff.mp hz
      rcases List.mem_cons.mp hz2 with rfl | hz3
      · exact hya
      · exact hy z hz3

theorem pairwise_stableSort (le : PolicyEvaluation → PolicyEvaluation → Bool)
    (htrans : ∀ a b c, le a b = true → le b c = true → le a c = true)
    (htotal : ∀ a b, le a b = true ∨ le b a = true)
    (l : List PolicyEvaluation) :
    (stableSort le l).Pairwise (fun x y => le x y = true) := by
  induction l with
  | nil => exact List.Pairwise.nil
  | cons x xs ih => exact pairwise_insertStable le htrans htotal x _ ih

/-- C1: with a non-empty matching set, the final decision equals the effect
of the matching evaluation of strictly highest priority — `permit` iff that
winner's effect is `permit`, else `deny`; in particular permit(10)/deny(20)
resolves to `deny` and raising the permit policy to priority 30 flips it to
`permit`. -/
theorem highest_priority_wins :
    (∀ (evaluations : List PolicyEvaluation) (policies : List PolicyWithRules)
        (w : PolicyEvaluation),
      w ∈ evaluations → w.matched = true →
      (∀ e ∈ evaluations, e.matched = true → e ≠ w →
        evalPriority policies e < evalPriority policies w) →
      (makeFinalDecision evaluations policies).1 =
        (if w.effect = "permit" then "permit" else "deny")) ∧
    (canUserPerformAction (dbTwoPolicies 10) reqRead 5).decision = "deny" ∧
    (canUserPerformAction (dbTwoPolicies 30) reqRead 5).decision = "permit" := by
  refine ⟨?_, rfl, rfl⟩
  intro evaluations policies w hw hwm hmax
  have hne : ¬(evaluations.length = 0) := by
    rw [List.length_eq_zero]
    intro h0
    rw [h0] at hw
    cases hw
  unfold makeFinalDecision
  rw [if_neg hne]
  unfold resolveMatchingEvaluations
  dsimp only
  have hwmem : w ∈ evaluations.filter (fun e => e.matched) :=
    List.mem_filter.mpr ⟨hw, hwm⟩
  have hmne : ¬((evaluations.filter (fun e => e.matched)).length = 0) := by
    rw [List.length_eq_zero]
    intro h0
    rw [h0] at hwmem
    cases hwmem
  rw [if_neg hmne]
  have htrans : ∀ a b c : PolicyEvaluation,
      (fun a b => decide (evalPriority policies b ≤ evalPriority policies a)) a b = true →
      (fun a b => decide (evalPriority policies b ≤ evalPriority policies a)) b c = true →
      (fun a b => decide (evalPriority policies b ≤ evalPriority policies a)) a c = true := by
    intro a b c h1 h2
    simp only [decide_eq_true_eq] at h1 h2 ⊢
    omega
  have htotal : ∀ a b : PolicyEvaluation,
      (fun a b => decide (evalPriority policies b ≤ evalPriority policies a)) a b = true ∨
      (fun a b => decide (evalPriority policies b ≤ evalPriority policies a)) b a = true := by
    intro a b
    simp only [decide_eq_true_eq]
    omega
  have hperm := stableSort_perm
    (fun a b => decide (evalPriority policies b ≤ evalPriority policies a))
    (evaluations.filter (fun e => e.matched))
  have hpw := pairwise_stableSort
    (fun a b => decide (evalPriority policies b ≤ evalPriority policies a))
    htrans htotal (evaluations.filter (fun e => e.matched))
  rcases hs : stableSort
      (fun a b => decide (evalPriority policies b ≤ evalPriority policies a))
      (evaluations.filter (fun e => e.matched)) with _ | ⟨top, rest⟩
  · rw [hs] at hperm
    exact absurd (by rw [List.length_eq_zero]; exact hperm.symm.eq_nil) hmne
  · rw [hs] at hperm hpw
    have htopmem : top ∈ evaluations.filter (fun e => e.matched) :=
      hperm.mem_iff.mp (List.mem_cons_self _ _)
    have htopfil := List.mem_filter.mp htopmem
    have htw : top = w := by
      by_cases htw0 : top = w
      · exact htw0
      · exfalso
        have hlt := hmax top htopfil.1 htopfil.2 htw0
        have hwin : w ∈ top :: rest := hperm.mem_iff.mpr hwmem
        rcases List.mem_cons.mp hwin with rfl | hwrest
        · exact htw0 rfl
        · have hle := List.rel_of_pairwise_cons hpw hwrest
          simp only [decide_eq_true_eq] at hle
          omega
    simp only [List.headD_cons]
    rw [htw]

theorem highest_priority_wins_witness :
    (makeFinalDecision [(⟨"p1", "p1", "permit", true, none⟩ : PolicyEvaluation)] []).1 =
      (if (⟨"p1", "p1", "permit", true, none⟩ : PolicyEvaluation).effect = "permit"
        then "permit" else "deny") :=
  highest_priority_wins.1 [⟨"p1", "p1", "permit", true, none⟩] []
    ⟨"p1", "p1", "permit", true, none⟩ (by decide) (by decide) (by decide)

theorem fetchPoliciesLoop_nonempty (db : Db) (rows : List PolicyRow)
    (apl : List PolicyWithRules) (h : fetchPoliciesLoop db rows = .ok apl) :
    ∀ pw ∈ apl, pw.rules ≠ [] ∨ pw.targets ≠ [] := by
  induction rows generalizing apl with
  | nil =>
    intro pw hpw
    unfold fetchPoliciesLoop at h
    rw [← pure_ok_inv h] at hpw
    cases hpw
  | cons p rest ih =>
    intro pw hpw
    unfold fetchPoliciesLoop at h
    obtain ⟨rules, hru, h⟩ := bind_ok_inv h
    try dsimp only at h
    obtain ⟨targets, hta, h⟩ := bind_ok_inv h
    try dsimp only at h
    obtain ⟨restOut, hre, h⟩ := bind_ok_inv h
    try dsimp only at h
    split at h
    · rw [← pure_ok_inv h] at hpw
      exact ih restOut hre pw hpw
    · rename_i hcond
      rw [not_and_or] at hcond
      rw [← pure_ok_inv h] at hpw
      rcases List.mem_cons.mp hpw with rfl | hpw2
      · rcases hcond with h1 | h1
        · left
          intro hc
          apply h1
          rw [List.length_eq_zero]
          exact hc
        · right
          intro hc
          apply h1
          rw [List.length_eq_zero]
          exact hc
      · exact ih restOut hre pw hpw2

theorem evaluatePolicies_name_mem (rt : String → String → Bool)
    (pols : List PolicyWithRules) (attributes : AttrMap) :
    ∀ ev ∈ evaluatePolicies rt pols attributes,
      ∃ pw ∈ pols, pw.policy.name = ev.policyName := by
  induction pols with
  | nil =>
    intro ev hev
    cases hev
  | cons pd rest ih =>
    intro ev hev
    unfold evaluatePolicies at hev
    split at hev
    · rcases List.mem_cons.mp hev with rfl | h2
      · exact ⟨pd, List.mem_cons_self _ _, rfl⟩
      · obtain ⟨pw, hmem, hnm⟩ := ih ev h2
        exact ⟨pw, List.mem_cons_of_mem _ hmem, hnm⟩
    · obtain ⟨pw, hmem, hnm⟩ := ih ev hev
      exact ⟨pw, List.mem_cons_of_mem _ hmem, hnm⟩

/-- C6: an active policy whose rule list and target list are both empty is
excluded before evaluation: every policy that `findApplicablePolicies` keeps
has rules or targets, and every name in the returned `appliedPolicies` comes
from a kept policy with non-empty rules or targets — so an empty policy never
contributes an evaluation nor its name. -/
theorem empty_policies_excluded :
    (∀ (db : Db) (apl : List PolicyWithRules),
      findApplicablePolicies db = .ok apl →
      ∀ pw ∈ apl, pw.rules ≠ [] ∨ pw.targets ≠ []) ∧
    (∀ (db : Db) (req : AuthorizationRequest) (t : Nat) (name : String),
      name ∈ (canUserPerformAction db req t).appliedPolicies →
      ∃ apl pw, findApplicablePolicies db = .ok apl ∧ pw ∈ apl ∧
        pw.policy.name = name ∧ (pw.rules ≠ [] ∨ pw.targets ≠ [])) := by
  have hmain : ∀ (db : Db) (apl : List PolicyWithRules),
      findApplicablePolicies db = .ok apl →
      ∀ pw ∈ apl, pw.rules ≠ [] ∨ pw.targets ≠ [] := by
    intro db apl h
    unfold findApplicablePolicies at h
    obtain ⟨rows, hro, h⟩ := bind_ok_inv h
    exact fetchPoliciesLoop_nonempty db rows apl h
  constructor
  · exact hmain
  · intro db req t name hname
    unfold canUserPerformAction at hname
    cases hra : runAuthorization db req with
    | error e =>
      rw [hra] at hname
      cases hname
    | ok out =>
      rw [hra] at hname
      dsimp only at hname
      unfold runAuthorization at hra
      obtain ⟨attributes, hat, hra⟩ := bind_ok_inv hra
      try dsimp only at hra
      obtain ⟨apl, hap, hra⟩ := bind_ok_inv hra
      try dsimp only at hra
      have hout := pure_ok_inv hra
      rw [← hout] at hname
      dsimp only at hname
      rw [List.mem_map] at hname
      obtain ⟨ev, hev, hevname⟩ := hname
      obtain ⟨pw, hmem, hnm⟩ := evaluatePolicies_name_mem db.regexTest apl attributes ev hev
      exact ⟨apl, pw, hap, hmem, by rw [hnm, hevname], hmain db apl hap pw hmem⟩

theorem empty_policies_excluded_witness :
    ∃ apl pw, findApplicablePolicies dbClearance = .ok apl ∧ pw ∈ apl ∧
      pw.policy.name = "p1" ∧ (pw.rules ≠ [] ∨ pw.targets ≠ []) :=
  empty_policies_excluded.2 dbClearance reqRead 5 "p1" (by decide)


theorem append_head_ne (p n k : String) (hne : p.data.head? ≠ k.data.head?)
    (hp : p.data ≠ []) : p ++ n ≠ k := by
  intro h
  apply hne
  rw [← h, String.data_append]
  cases hd : p.data with
  | nil => exact absurd hd hp
  | cons c tl => simp [hd]

theorem bind_ok {α β : Type} (a : α) (f : α → Except String β) :
    ((.ok a : Except String α) >>= f) = f a := rfl

theorem addAttrsLoop_count (pre : String) (rows : List AttributeValue)
    (st : AttrMap × Nat) (h : st.2 + rows.length ≤ MAX_ATTRIBUTES_PER_REQUEST) :
    (addAttrsLoop pre rows st).2 = st.2 + rows.length := by
  induction rows generalizing st with
  | nil => simp [addAttrsLoop]
  | cons a rest ih =>
    rw [List.length_cons] at h
    have hlt : ¬(st.2 ≥ MAX_ATTRIBUTES_PER_REQUEST) := by omega
    simp only [addAttrsLoop, safelyAddAttribute, if_neg hlt, if_true]
    rw [ih (mapSet st.1 (pre ++ "." ++ a.name) a, st.2 + 1) (by simp only []; omega)]
    simp only [List.length_cons]
    omega

theorem mapGet_addAttrsLoop_ne (pre : String) (rows : List AttributeValue)
    (st : AttrMap × Nat) (k : String) (hk : ∀ n : String, pre ++ "." ++ n ≠ k) :
    mapGet (addAttrsLoop pre rows st).1 k = mapGet st.1 k := by
  induction rows generalizing st with
  | nil => rfl
  | cons a rest ih =>
    by_cases hge : st.2 ≥ MAX_ATTRIBUTES_PER_REQUEST
    · simp only [addAttrsLoop, safelyAddAttribute, if_pos hge]
      rfl
    · simp only [addAttrsLoop, safelyAddAttribute, if_neg hge, if_true]
      rw [ih (mapSet st.1 (pre ++ "." ++ a.name) a, st.2 + 1)]
      exact mapGet_mapSet_ne st.1 a (hk a.name)

theorem mapGet_condAddAttr_ne (st : AttrMap × Nat) (k : String) (v : AttributeValue)
    (kq : String) (h : ¬k = kq) :
    mapGet (condAddAttr st k v).1 kq = mapGet st.1 kq := by
  unfold condAddAttr
  split
  · exact mapGet_mapSet_ne st.1 v h
  · rfl

theorem mapGet_ctxLoop_ne (ctx : List (String × String)) (st : AttrMap × Nat)
    (k : String) (hk : ∀ n : String, "environment." ++ n ≠ k) :
    mapGet (ctxLoop ctx st).1 k = mapGet st.1 k := by
  induction ctx generalizing st with
  | nil => rfl
  | cons e rest ih =>
    unfold ctxLoop
    split
    · rfl
    · rw [ih]
      exact mapGet_mapSet_ne st.1 _ (hk e.1)

theorem mapGet_addDynamic_ne (st : AttrMap × Nat) (ctx : List (String × String))
    (nowISO nowDay : String) (k : String)
    (hk : ∀ n : String, "environment." ++ n ≠ k) :
    mapGet (addDynamicEnvironmentAttributes st ctx nowISO nowDay).1 k
      = mapGet st.1 k := by
  have h1 : ¬("environment.current_time" = k) := by
    have := hk "current_time"
    rwa [show ("environment." ++ "current_time" : String) = "environment.current_time" from rfl] at this
  have h2 : ¬("environment.day_of_week" = k) := by
    have := hk "day_of_week"
    rwa [show ("environment." ++ "day_of_week" : String) = "environment.day_of_week" from rfl] at this
  unfold addDynamicEnvironmentAttributes
  dsimp only
  split
  · rw [mapGet_ctxLoop_ne _ _ _ hk, mapGet_condAddAttr_ne _ _ _ _ h2,
      mapGet_condAddAttr_ne _ _ _ _ h1]
  · rw [mapGet_condAddAttr_ne _ _ _ _ h2, mapGet_condAddAttr_ne _ _ _ _ h1]

theorem mapGet_actionSection_ne (db : Db) (req : AuthorizationRequest)
    {st3 st4 : AttrMap × Nat} (h : gatherActionSection db req st3 = .ok st4)
    (k : String) (hk : ∀ n : String, "action." ++ n ≠ k) :
    mapGet st4.1 k = mapGet st3.1 k := by
  unfold gatherActionSection at h
  split at h
  · obtain ⟨aa, haa, h⟩ := bind_ok_inv h
    try dsimp only at h
    rw [← pure_ok_inv h]
    exact mapGet_addAttrsLoop_ne "action" aa st3 k hk
  · rw [← pure_ok_inv h]

theorem mapGet_addResourceType_ne (req : AuthorizationRequest)
    (st5 : AttrMap × Nat) (k : String) (hk : ¬("resource.resource_type" = k)) :
    mapGet (addResourceTypeAttr req st5).1 k = mapGet st5.1 k := by
  unfold addResourceTypeAttr
  split
  · split
    · rfl
    · exact mapGet_condAddAttr_ne _ _ _ _ hk
  · rfl

theorem mapGet_envSection_ne (db : Db) {st6 st7 : AttrMap × Nat}
    (h : gatherEnvSection db st6 = .ok st7) (k : String)
    (hk : ∀ n : String, "environment." ++ n ≠ k) :
    mapGet st7.1 k = mapGet st6.1 k := by
  unfold gatherEnvSection at h
  split at h
  · obtain ⟨er, her, h⟩ := bind_ok_inv h
    try dsimp only at h
    rw [← pure_ok_inv h]
    exact mapGet_addAttrsLoop_ne "environment" _ st6 k hk
  · rw [← pure_ok_inv h]

theorem resourceSection_owner (db : Db) (req : AuthorizationRequest)
    (rid ownerId : String) (rsa : List AttributeValue) (st2 : AttrMap × Nat)
    (hri : req.resourceId = some rid) (hrid : rid ≠ "")
    (hresa : db.resourceAttrs rid = .ok rsa)
    (how : db.resourceOwner rid = .ok (some ownerId))
    (hcnt : st2.2 + rsa.length + 1 < MAX_ATTRIBUTES_PER_REQUEST) :
    ∃ st3, gatherResourceSection db req st2 = .ok st3 ∧
      (mapGet st3.1 "resource.is_owner").map (fun a => a.value) =
        some (jsBoolStr (ownerId == req.subjectId)) := by
  have hc2 : st2.2 < MAX_ATTRIBUTES_PER_REQUEST := by omega
  have hc3eq : (addAttrsLoop "resource" rsa st2).2 = st2.2 + rsa.length :=
    addAttrsLoop_count "resource" rsa st2 (by omega)
  have hc3 : (addAttrsLoop "resource" rsa st2).2 < MAX_ATTRIBUTES_PER_REQUEST := by
    omega
  have hc4 : (addAttrsLoop "resource" rsa st2).2 + 1 < MAX_ATTRIBUTES_PER_REQUEST := by
    omega
  unfold gatherResourceSection
  rw [hri]
  try dsimp only
  rw [if_pos ⟨hrid, hc2⟩, hresa, bind_ok]
  try dsimp only
  rw [if_pos hc3, how, bind_ok]
  try dsimp only
  rw [if_pos hc3]
  refine ⟨_, rfl, ?_⟩
  unfold condAddAttr
  rw [if_pos hc4]
  try dsimp only
  rw [mapGet_mapSet_self]
  rfl

theorem resourceSection_absent (db : Db) (req : AuthorizationRequest)
    (rid : String) (st2 : AttrMap × Nat)
    (hri : req.resourceId = some rid) (hrid : rid ≠ "")
    (hresa : db.resourceAttrs rid = .ok [])
    (how : db.resourceOwner rid = .ok none) :
    gatherResourceSection db req st2 = .ok st2 := by
  unfold gatherResourceSection
  rw [hri]
  try dsimp only
  by_cases hc2 : st2.2 < MAX_ATTRIBUTES_PER_REQUEST
  · rw [if_pos ⟨hrid, hc2⟩, hresa, bind_ok]
    try dsimp only
    have hid : addAttrsLoop "resource" [] st2 = st2 := rfl
    rw [hid]
    rw [if_pos hc2, how, bind_ok]
    rfl
  · rw [if_neg (by intro hc; exact hc2 hc.2)]
    rfl

theorem actionSection_isOk (db : Db) (req : AuthorizationRequest)
    (st3 : AttrMap × Nat) (aa : List AttributeValue)
    (haa : db.actionAttrs req.actionName = .ok aa) :
    ∃ st4, gatherActionSection db req st3 = .ok st4 := by
  unfold gatherActionSection
  split
  · rw [haa, bind_ok]
    exact ⟨_, rfl⟩
  · exact ⟨_, rfl⟩

theorem envSection_isOk (db : Db) (st6 : AttrMap × Nat) (er : List EnvAttrRow)
    (her : db.envRows = .ok er) :
    ∃ st7, gatherEnvSection db st6 = .ok st7 := by
  unfold gatherEnvSection
  split
  · rw [her, bind_ok]
    exact ⟨_, rfl⟩
  · exact ⟨_, rfl⟩

theorem maxAttrs_eq : MAX_ATTRIBUTES_PER_REQUEST = 100 := rfl

theorem action_pre_ne_isOwner : ∀ n : String, "action." ++ n ≠ "resource.is_owner" :=
  fun n => append_head_ne "action." n _ (by decide) (by decide)

theorem env_pre_ne_isOwner : ∀ n : String, "environment." ++ n ≠ "resource.is_owner" :=
  fun n => append_head_ne "environment." n _ (by decide) (by decide)

theorem subject_pre_ne_isOwner : ∀ n : String, "subject." ++ n ≠ "resource.is_owner" :=
  fun n => append_head_ne "subject." n _ (by decide) (by decide)

theorem action_pre_ne_ownerId : ∀ n : String, "action." ++ n ≠ "resource.owner_id" :=
  fun n => append_head_ne "action." n _ (by decide) (by decide)

theorem env_pre_ne_ownerId : ∀ n : String, "environment." ++ n ≠ "resource.owner_id" :=
  fun n => append_head_ne "environment." n _ (by decide) (by decide)

theorem subject_pre_ne_ownerId : ∀ n : String, "subject." ++ n ≠ "resource.owner_id" :=
  fun n => append_head_ne "subject." n _ (by decide) (by decide)

/-- C8 amended: provided the attribute cap is not reached (at most 98
stored subject+role+resource attributes), the map for a request addressing a
resource with a known owner maps `resource.is_owner` to `"true"` when the
request's subject is the owner and `"false"` otherwise; and when the owner
lookup returns nothing (hence the resource row is absent and the
resource-attribute join is empty), both `resource.owner_id` and
`resource.is_owner` are omitted. -/
theorem ownership_derivation :
    (∀ (db : Db) (req : AuthorizationRequest) (rid ownerId : String)
        (sa ra rsa aa : List AttributeValue) (er : List EnvAttrRow),
      req.resourceId = some rid → rid ≠ "" →
      db.userAttrs req.subjectId = .ok sa →
      db.roleAttrs req.subjectId = .ok ra →
      db.resourceAttrs rid = .ok rsa →
      db.resourceOwner rid = .ok (some ownerId) →
      db.actionAttrs req.actionName = .ok aa →
      db.envRows = .ok er →
      sa.length + ra.length + rsa.length ≤ 98 →
      ∃ m, gatherAttributes db req = .ok m ∧
        (mapGet m "resource.is_owner").map (fun a => a.value) =
          some (if ownerId = req.subjectId then "true" else "false")) ∧
    (∀ (db : Db) (req : AuthorizationRequest) (rid : String)
        (sa ra aa : List AttributeValue) (er : List EnvAttrRow),
      req.resourceId = some rid → rid ≠ "" →
      db.userAttrs req.subjectId = .ok sa →
      db.roleAttrs req.subjectId = .ok ra →
      db.resourceAttrs rid = .ok [] →
      db.resourceOwner rid = .ok none →
      db.actionAttrs req.actionName = .ok aa →
      db.envRows = .ok er →
      ∃ m, gatherAttributes db req = .ok m ∧
        mapGet m "resource.owner_id" = none ∧
        mapGet m "resource.is_owner" = none) := by
  constructor
  · intro db req rid ownerId sa ra rsa aa er hri hrid hsa hra hresa how haa her hlen
    have hc1 : (addAttrsLoop "subject" sa (([] : AttrMap), 0)).2 = 0 + sa.length :=
      addAttrsLoop_count _ _ _
        (by show 0 + sa.length ≤ MAX_ATTRIBUTES_PER_REQUEST; rw [maxAttrs_eq]; omega)
    have hc2 : (addAttrsLoop "subject" ra (addAttrsLoop "subject" sa (([] : AttrMap), 0))).2
        = sa.length + ra.length := by
      rw [addAttrsLoop_count _ _ _ (by rw [hc1, maxAttrs_eq]; omega), hc1]
      omega
    obtain ⟨st3, h3, hio⟩ := resourceSection_owner db req rid ownerId rsa
      (addAttrsLoop "subject" ra (addAttrsLoop "subject" sa ([], 0)))
      hri hrid hresa how (by rw [hc2, maxAttrs_eq]; omega)
    obtain ⟨st4, h4⟩ := actionSection_isOk db req st3 aa haa
    obtain ⟨st7, h7⟩ := envSection_isOk db
      (addResourceTypeAttr req (condAddAttr st4 "action.action_name"
        ⟨"dynamic-action-name", "action_name", "string", "action", req.actionName⟩))
      er her
    have hg : gatherAttributes db req =
        .ok (addDynamicEnvironmentAttributes st7 req.context db.nowISO db.nowDay).1 := by
      unfold gatherAttributes
      rw [hsa, bind_ok]
      try dsimp only
      rw [hra, bind_ok]
      try dsimp only
      rw [h3, bind_ok]
      try dsimp only
      rw [h4, bind_ok]
      try dsimp only
      rw [h7, bind_ok]
      rfl
    refine ⟨_, hg, ?_⟩
    rw [mapGet_addDynamic_ne st7 req.context db.nowISO db.nowDay _ env_pre_ne_isOwner]
    rw [mapGet_envSection_ne db h7 _ env_pre_ne_isOwner]
    rw [mapGet_addResourceType_ne req _ _ (by decide)]
    rw [mapGet_condAddAttr_ne st4 _ _ _ (by decide)]
    rw [mapGet_actionSection_ne db req h4 _ action_pre_ne_isOwner]
    rw [hio]
    unfold jsBoolStr
    by_cases heq : ownerId = req.subjectId
    · simp [heq]
    · simp [beq_eq_false_iff_ne.mpr heq, heq]
  · intro db req rid sa ra aa er hri hrid hsa hra hresa how haa her
    have h3 := resourceSection_absent db req rid
      (addAttrsLoop "subject" ra (addAttrsLoop "subject" sa ([], 0))) hri hrid hresa how
    obtain ⟨st4, h4⟩ := actionSection_isOk db req
      (addAttrsLoop "subject" ra (addAttrsLoop "subject" sa ([], 0))) aa haa
    obtain ⟨st7, h7⟩ := envSection_isOk db
      (addResourceTypeAttr req (condAddAttr st4 "action.action_name"
        ⟨"dynamic-action-name", "action_name", "string", "action", req.actionName⟩))
      er her
    have hg : gatherAttributes db req =
        .ok (addDynamicEnvironmentAttributes st7 req.context db.nowISO db.nowDay).1 := by
      unfold gatherAttributes
      rw [hsa, bind_ok]
      try dsimp only
      rw [hra, bind_ok]
      try dsimp only
      rw [h3, bind_ok]
      try dsimp only
      rw [h4, bind_ok]
      try dsimp only
      rw [h7, bind_ok]
      rfl
    refine ⟨_, hg, ?_, ?_⟩
    · rw [mapGet_addDynamic_ne st7 req.context db.nowISO db.nowDay _ env_pre_ne_ownerId]
      rw [mapGet_envSection_ne db h7 _ env_pre_ne_ownerId]
      rw [mapGet_addResourceType_ne req _ _ (by decide)]
      rw [mapGet_condAddAttr_ne st4 _ _ _ (by decide)]
      rw [mapGet_actionSection_ne db req h4 _ action_pre_ne_ownerId]
      rw [mapGet_addAttrsLoop_ne "subject" ra _ _ subject_pre_ne_ownerId]
      rw [mapGet_addAttrsLoop_ne "subject" sa _ _ subject_pre_ne_ownerId]
      rfl
    · rw [mapGet_addDynamic_ne st7 req.context db.nowISO db.nowDay _ env_pre_ne_isOwner]
      rw [mapGet_envSection_ne db h7 _ env_pre_ne_isOwner]
      rw [mapGet_addResourceType_ne req _ _ (by decide)]
      rw [mapGet_condAddAttr_ne st4 _ _ _ (by decide)]
      rw [mapGet_actionSection_ne db req h4 _ action_pre_ne_isOwner]
      rw [mapGet_addAttrsLoop_ne "subject" ra _ _ subject_pre_ne_isOwner]
      rw [mapGet_addAttrsLoop_ne "subject" sa _ _ subject_pre_ne_isOwner]
      rfl

set_option maxRecDepth 100000 in
/-- C8 counterexample: with 99 stored subject attributes, a request by the
owner `u1` for the resource owned by `u1` produces a map in which
`resource.owner_id` was added as the 100th attribute but `resource.is_owner`
was silently skipped by the attribute cap — the claim's unconditional mapping
to `"true"` fails. -/
theorem is_owner_skipped_at_cap :
    dbNearCap.resourceOwner "r1" = .ok (some "u1") ∧
    reqOwnedResource.subjectId = "u1" ∧
    (gatherAttributes dbNearCap reqOwnedResource).toOption.map
      (fun m => (mapGet m "resource.is_owner",
        (mapGet m "resource.owner_id").map (fun a => a.value)))
      = some (none, some "u1") := by
  refine ⟨rfl, rfl, ?_⟩
  rfl

theorem ownership_derivation_witness :
    ∃ m, gatherAttributes dbOwned ⟨"u1", some "r1", none, "read", []⟩ = .ok m ∧
      (mapGet m "resource.is_owner").map (fun a => a.value) =
        some (if "u1" = (⟨"u1", some "r1", none, "read", []⟩ : AuthorizationRequest).subjectId
          then "true" else "false") :=
  ownership_derivation.1 dbOwned ⟨"u1", some "r1", none, "read", []⟩ "r1" "u1"
    [] [] [] [] [] rfl (by decide) rfl rfl rfl rfl rfl rfl (by decide)

set_option maxRecDepth 100000 in
/-- C10: the attribute map produced by `gatherAttributes` holds at most
`MAX_ATTRIBUTES_PER_REQUEST` (100) entries; with 100 stored subject attributes
the cap is reached and even the synthetic `action.action_name` is silently
skipped (no error), the evaluation proceeding on the truncated map. -/
theorem attribute_map_bounded :
    (∀ (db : Db) (req : AuthorizationRequest) (m : AttrMap),
      gatherAttributes db req = .ok m → m.length ≤ MAX_ATTRIBUTES_PER_REQUEST) ∧
    ((gatherAttributes dbAtCap ⟨"u1", none, none, "read", []⟩).toOption.map
      (fun m => (m.length, mapGet m "action.action_name")) = some (100, none)) := by
  constructor
  · exact gatherAttributes_length_le
  · rfl

theorem attribute_map_bounded_witness :
    ([("action.action_name",
        ⟨"dynamic-action-name", "action_name", "string", "action", "read"⟩),
      ("environment.current_time",
        ⟨"env-current-time", "current_time", "string", "environment",
          "2026-01-01T00:00:00.000Z"⟩),
      ("environment.day_of_week",
        ⟨"env-day-of-week", "day_of_week", "string", "environment", "4"⟩)] :
      AttrMap).length ≤ MAX_ATTRIBUTES_PER_REQUEST :=
  attribute_map_bounded.1 emptyDb reqRead _ rfl
